import Mathlib

/-!
Verification of the obsidian-link-embed repository's core components:
the image-dimension resolver with its failure-counting cache
(`src/parsers/utils/imageUtils.ts`), the parser orchestrator
(`src/embedUtils.ts`), the bounded-concurrency task queue
(`concurrencyLimiter.ts`), the parser `process` normalizers, the
local scraper's visibility predicate and favicon resolution
(`src/parsers/LocalParser.ts`), the parser factory
(`src/parsers/index.ts`), and the vault image downloader.

JavaScript `Map` objects are modelled as association lists, promises as
explicit `Except` results, and the browser image-load outcome as an
explicit parameter.
-/

namespace LinkEmbed

/-- Association-list model of a JavaScript `Map` with string keys. -/
abbrev JMap (α : Type) := List (String × α)

/-- `map.has(k)` -/
def mapHas {α : Type} (m : JMap α) (k : String) : Bool :=
  m.any (fun p => p.1 == k)

/-- `map.get(k)` (undefined modelled as `none`). -/
def mapGet {α : Type} (m : JMap α) (k : String) : Option α :=
  (m.find? (fun p => p.1 == k)).map (fun p => p.2)

/-- `map.set(k, v)` -/
def mapSet {α : Type} (m : JMap α) (k : String) (v : α) : JMap α :=
  if mapHas m k then
    m.map (fun p => if p.1 == k then (k, v) else p)
  else
    m ++ [(k, v)]

/-- `map.delete(k)` -/
def mapDelete {α : Type} (m : JMap α) (k : String) : JMap α :=
  m.filter (fun p => p.1 != k)

/-! ## Image dimension resolver (`src/parsers/utils/imageUtils.ts`) -/

/-- The `ImageDimensions` type of `imageUtils.ts`.  JavaScript numbers are
modelled as rationals. -/
structure ImageDimensions where
  width : ℚ
  height : ℚ
  aspectRatio : ℚ
deriving DecidableEq, Repr

/-- `DEFAULT_IMAGE_DIMENSIONS` of `imageUtils.ts`. -/
def DEFAULT_IMAGE_DIMENSIONS : ImageDimensions :=
  { width := 160, height := 160, aspectRatio := 100 }

/-- `MAX_LOAD_ATTEMPTS` of `imageUtils.ts`. -/
def MAX_LOAD_ATTEMPTS : Nat := 5

/-- The two maps threaded through `getImageDimensions`: the dimension
cache and the per-key load-attempt counter.  Either may be absent
(`null`/`undefined` in the source). -/
structure GIDState where
  cache : Option (JMap ImageDimensions)
  attempts : Option (JMap Nat)
deriving DecidableEq, Repr

/-- Outcome of the browser's attempt to load the image: `onload` with the
natural width and height, or `onerror`. -/
inductive LoadOutcome : Type where
  | success (width height : ℚ)
  | failure
deriving DecidableEq, Repr

/-- JavaScript `url.substring(0, n) + (url.length > n ? '...' : '')`. -/
def truncateKey (url : String) (n : Nat) : String :=
  (url.take n) ++ (if url.length > n then "..." else "")

/-- Result of one `getImageDimensions` call: the settled promise value
(`Except.error` is a rejection), the two maps afterwards, and whether an
image load was attempted (whether `img.src` was assigned). -/
structure GIDOut where
  result : Except String ImageDimensions
  state : GIDState
  loadAttempted : Bool
deriving Repr

/-- The recorded attempt count read by `getImageDimensions`
(`imageLoadAttempts && imageLoadAttempts.has(imageUrl) ? ... : 0`). -/
def recordedAttempts (st : GIDState) (imageUrl : String) : Nat :=
  match st.attempts with
  | some a =>
    match mapGet a imageUrl with
    | some n => n
    | none => 0
  | none => 0

/-- The body of `getImageDimensions` after the cache check: attempt-count
check, then the image load with its `onload`/`onerror` handlers. -/
def getImageDimensionsCore (imageUrl : String) (st : GIDState)
    (load : LoadOutcome) : GIDOut :=
  let attempts := recordedAttempts st imageUrl
  if attempts ≥ MAX_LOAD_ATTEMPTS then
    -- poisoned key: memoize the default in the cache if present
    { result := .ok DEFAULT_IMAGE_DIMENSIONS,
      state :=
        { cache := st.cache.map (fun c =>
            mapSet c imageUrl DEFAULT_IMAGE_DIMENSIONS),
          attempts := st.attempts },
      loadAttempted := false }
  else
    match load with
    | .success w h =>
      let dims : ImageDimensions :=
        { width := w, height := h, aspectRatio := h / w * 100 }
      let cache' := st.cache.map (fun c => mapSet c imageUrl dims)
      -- reset failure counter on success
      let attempts' :=
        if attempts > 0 then
          st.attempts.map (fun a => mapDelete a imageUrl)
        else st.attempts
      { result := .ok dims,
        state := { cache := cache', attempts := attempts' },
        loadAttempted := true }
    | .failure =>
      let newAttempts := attempts + 1
      let attempts' := st.attempts.map (fun a =>
        mapSet a imageUrl newAttempts)
      if newAttempts ≥ MAX_LOAD_ATTEMPTS then
        { result := .ok DEFAULT_IMAGE_DIMENSIONS,
          state :=
            { cache := st.cache.map (fun c =>
                mapSet c imageUrl DEFAULT_IMAGE_DIMENSIONS),
              attempts := attempts' },
          loadAttempted := true }
      else
        { result := .error ("Failed to load image: " ++
            truncateKey imageUrl 150),
          state := { cache := st.cache, attempts := attempts' },
          loadAttempted := true }

/-- `getImageDimensions` of `imageUtils.ts`, with the image-load outcome
supplied as a parameter. -/
def getImageDimensions (imageUrl : String) (st : GIDState)
    (load : LoadOutcome) : GIDOut :=
  -- cache && cache.has(imageUrl)
  match st.cache with
  | some c =>
    if mapHas c imageUrl then
      match mapGet c imageUrl with
      | some v => { result := .ok v, state := st, loadAttempted := false }
      | none =>
        -- unreachable: `mapHas` implies `mapGet` is `some`
        { result := .ok DEFAULT_IMAGE_DIMENSIONS, state := st,
          loadAttempted := false }
    else
      getImageDimensionsCore imageUrl st load
  | none => getImageDimensionsCore imageUrl st load

/-- The state after `n` consecutive failing calls for key `url`,
starting from a supplied cache and counter that are both empty. -/
def failState (url : String) : Nat → GIDState
  | 0 => { cache := some [], attempts := some [] }
  | n + 1 => (getImageDimensions url (failState url n) .failure).state

/-- The outcome of the `(n+1)`-th consecutive failing call for `url`. -/
def failResult (url : String) (n : Nat) : GIDOut :=
  getImageDimensions url (failState url n) .failure

/-! ### Lemmas about single `getImageDimensions` calls -/

theorem mapHas_nil {α : Type} (k : String) : mapHas ([] : JMap α) k = false := rfl

theorem mapGet_nil {α : Type} (k : String) : mapGet ([] : JMap α) k = none := rfl

theorem mapHas_single {α : Type} (k : String) (v : α) :
    mapHas [(k, v)] k = true := by
  simp [mapHas]

theorem mapGet_single {α : Type} (k : String) (v : α) :
    mapGet [(k, v)] k = some v := by
  simp [mapGet]

theorem mapSet_nil {α : Type} (k : String) (v : α) :
    mapSet ([] : JMap α) k v = [(k, v)] := by
  simp [mapSet, mapHas]

theorem mapSet_single {α : Type} (k : String) (v w : α) :
    mapSet [(k, v)] k w = [(k, w)] := by
  simp [mapSet, mapHas]

/-- A call that hits the cache returns the cached value, changes nothing
and attempts no load. -/
theorem gid_cache_hit (url : String) (c : JMap ImageDimensions)
    (a : Option (JMap Nat)) (load : LoadOutcome) (v : ImageDimensions)
    (hv : mapGet c url = some v) :
    getImageDimensions url ⟨some c, a⟩ load =
      ⟨.ok v, ⟨some c, a⟩, false⟩ := by
  have hh : mapHas c url = true := by
    simp only [mapGet, Option.map_eq_some'] at hv
    obtain ⟨p, hp, _⟩ := hv
    have hpred : (p.1 == url) = true := by simpa using List.find?_some hp
    simp only [mapHas, List.any_eq_true]
    exact ⟨p, List.mem_of_find?_eq_some hp, hpred⟩
  simp [getImageDimensions, hh, hv]

/-- A cache-missing call on a key whose recorded attempts have reached
the ceiling returns the default dimensions, memoizes them in the cache,
leaves the attempt counter unchanged, and attempts no load. -/
theorem gid_poisoned (url : String) (c : JMap ImageDimensions)
    (a : Option (JMap Nat)) (load : LoadOutcome)
    (hc : mapHas c url = false)
    (hn : recordedAttempts ⟨some c, a⟩ url ≥ MAX_LOAD_ATTEMPTS) :
    getImageDimensions url ⟨some c, a⟩ load =
      ⟨.ok DEFAULT_IMAGE_DIMENSIONS,
       ⟨some (mapSet c url DEFAULT_IMAGE_DIMENSIONS), a⟩, false⟩ := by
  simp [getImageDimensions, hc, getImageDimensionsCore, hn]

/-- The cache-absent version of the poisoned-key call: still returns the
default with no load attempted. -/
theorem gid_poisoned_no_cache (url : String) (a : Option (JMap Nat))
    (load : LoadOutcome)
    (hn : recordedAttempts ⟨none, a⟩ url ≥ MAX_LOAD_ATTEMPTS) :
    getImageDimensions url ⟨none, a⟩ load =
      ⟨.ok DEFAULT_IMAGE_DIMENSIONS, ⟨none, a⟩, false⟩ := by
  simp [getImageDimensions, getImageDimensionsCore, hn]

/-- A cache-missing failing load below the ceiling is rejected and the
counter is bumped. -/
theorem gid_fail_below (url : String) (c : JMap ImageDimensions)
    (a : JMap Nat)
    (hc : mapHas c url = false)
    (hn : recordedAttempts ⟨some c, some a⟩ url + 1 < MAX_LOAD_ATTEMPTS) :
    getImageDimensions url ⟨some c, some a⟩ .failure =
      ⟨.error ("Failed to load image: " ++ truncateKey url 150),
       ⟨some c, some (mapSet a url (recordedAttempts ⟨some c, some a⟩ url + 1))⟩,
       true⟩ := by
  have h1 : ¬ recordedAttempts ⟨some c, some a⟩ url ≥ MAX_LOAD_ATTEMPTS := by
    omega
  have h2 : ¬ recordedAttempts ⟨some c, some a⟩ url + 1 ≥ MAX_LOAD_ATTEMPTS := by
    omega
  simp [getImageDimensions, hc, getImageDimensionsCore, h1, h2]

/-- A cache-missing failing load that reaches the ceiling resolves to the
default, memoizes it, and records the new count. -/
theorem gid_fail_reach (url : String) (c : JMap ImageDimensions)
    (a : JMap Nat)
    (hc : mapHas c url = false)
    (hlow : ¬ recordedAttempts ⟨some c, some a⟩ url ≥ MAX_LOAD_ATTEMPTS)
    (hn : recordedAttempts ⟨some c, some a⟩ url + 1 ≥ MAX_LOAD_ATTEMPTS) :
    getImageDimensions url ⟨some c, some a⟩ .failure =
      ⟨.ok DEFAULT_IMAGE_DIMENSIONS,
       ⟨some (mapSet c url DEFAULT_IMAGE_DIMENSIONS),
        some (mapSet a url (recordedAttempts ⟨some c, some a⟩ url + 1))⟩,
       true⟩ := by
  simp [getImageDimensions, hc, getImageDimensionsCore, hlow, hn]

/-- Characterization of the state after `n` consecutive failures:
below the ceiling the counter records `n`; at and beyond the ceiling the
cache is pinned to the default and the counter stays at `5`. -/
theorem failState_eq (url : String) : ∀ n : Nat,
    failState url n =
      if n = 0 then ⟨some [], some []⟩
      else if n ≤ 4 then ⟨some [], some [(url, n)]⟩
      else ⟨some [(url, DEFAULT_IMAGE_DIMENSIONS)], some [(url, 5)]⟩ := by
  intro n
  induction n with
  | zero => rfl
  | succ m ih =>
    rw [show failState url (m + 1)
        = (getImageDimensions url (failState url m) .failure).state from rfl, ih]
    rcases Nat.lt_or_ge m 5 with hm | hm
    · interval_cases m
      · rw [if_pos rfl]
        rw [gid_fail_below url [] [] (mapHas_nil url)
          (by simp [recordedAttempts, mapGet, MAX_LOAD_ATTEMPTS])]
        simp [recordedAttempts, mapGet_nil, mapSet_nil]
      · rw [if_neg (by omega), if_pos (by omega)]
        rw [gid_fail_below url [] [(url, 1)] (mapHas_nil url)
          (by simp [recordedAttempts, mapGet_single, MAX_LOAD_ATTEMPTS])]
        simp [recordedAttempts, mapGet_single, mapSet_single]
      · rw [if_neg (by omega), if_pos (by omega)]
        rw [gid_fail_below url [] [(url, 2)] (mapHas_nil url)
          (by simp [recordedAttempts, mapGet_single, MAX_LOAD_ATTEMPTS])]
        simp [recordedAttempts, mapGet_single, mapSet_single]
      · rw [if_neg (by omega), if_pos (by omega)]
        rw [gid_fail_below url [] [(url, 3)] (mapHas_nil url)
          (by simp [recordedAttempts, mapGet_single, MAX_LOAD_ATTEMPTS])]
        simp [recordedAttempts, mapGet_single, mapSet_single]
      · rw [if_neg (by omega), if_pos (by omega)]
        rw [gid_fail_reach url [] [(url, 4)] (mapHas_nil url)
          (by simp [recordedAttempts, mapGet_single, MAX_LOAD_ATTEMPTS])
          (by simp [recordedAttempts, mapGet_single, MAX_LOAD_ATTEMPTS])]
        simp [recordedAttempts, mapGet_single, mapSet_single, mapSet_nil]
    · rw [if_neg (by omega), if_neg (by omega)]
      rw [gid_cache_hit url _ _ .failure DEFAULT_IMAGE_DIMENSIONS
        (mapGet_single url DEFAULT_IMAGE_DIMENSIONS)]
      rw [if_neg (by omega), if_neg (by omega)]

theorem find?_map_replace {α : Type} (k : String) (v : α) (m : JMap α)
    (h : mapHas m k = true) :
    List.find? (fun p => p.1 == k)
      (m.map (fun p => if p.1 == k then (k, v) else p)) = some (k, v) := by
  induction m with
  | nil => simp [mapHas] at h
  | cons p rest ih =>
    by_cases hp : (p.1 == k) = true
    · simp only [List.map_cons, if_pos hp]
      exact List.find?_cons_of_pos _ (by simp)
    · simp only [List.map_cons, if_neg hp]
      rw [List.find?_cons_of_neg _ (by simpa using hp)]
      apply ih
      simpa [mapHas, hp] using h

theorem find?_append_absent {α : Type} (k : String) (v : α) (m : JMap α)
    (h : mapHas m k = false) :
    List.find? (fun p => p.1 == k) (m ++ [(k, v)]) = some (k, v) := by
  rw [List.find?_append]
  have h' := h
  rw [mapHas, List.any_eq_false] at h'
  have hnone : List.find? (fun p => p.1 == k) m = none := by
    rw [List.find?_eq_none]
    intro x hx
    simpa using h' x hx
  rw [hnone]
  simp

/-- After `mapSet m k v`, looking up `k` finds `v`. -/
theorem mapGet_mapSet {α : Type} (m : JMap α) (k : String) (v : α) :
    mapGet (mapSet m k v) k = some v := by
  unfold mapSet
  by_cases h : mapHas m k = true
  · rw [if_pos h, mapGet, find?_map_replace k v m h]
    rfl
  · rw [if_neg h, mapGet, find?_append_absent k v m (by simpa using h)]
    rfl

/-! ### Claims C1 and C6 -/

/-- C1: for every image key with a supplied attempt counter (and a
supplied cache), starting from no record for that key: each of the first
four consecutive failed loads is propagated to the caller as a rejection
(each recording its failure count, at most 4); the fifth consecutive
failure instead resolves with the fixed default dimensions (width 160,
height 160, aspectRatio 100) and memoizes them in the cache; and every
subsequent call for that key — whatever the would-be load outcome —
returns the cached default without attempting another image load. -/
theorem C1_fifth_failure_defaults (url : String) (n : Nat) :
    (n ≤ 3 → failResult url n =
      ⟨.error ("Failed to load image: " ++ truncateKey url 150),
       ⟨some [], some [(url, n + 1)]⟩, true⟩) ∧
    (n = 4 → failResult url n =
      ⟨.ok DEFAULT_IMAGE_DIMENSIONS,
       ⟨some [(url, DEFAULT_IMAGE_DIMENSIONS)], some [(url, 5)]⟩, true⟩) ∧
    (5 ≤ n → ∀ load, getImageDimensions url (failState url n) load =
      ⟨.ok DEFAULT_IMAGE_DIMENSIONS, failState url n, false⟩) := by
  refine ⟨?_, ?_, ?_⟩
  · intro h
    rw [failResult, failState_eq]
    interval_cases n
    · rw [if_pos rfl]
      rw [gid_fail_below url [] [] (mapHas_nil url)
        (by simp [recordedAttempts, mapGet, MAX_LOAD_ATTEMPTS])]
      simp [recordedAttempts, mapGet_nil, mapSet_nil]
    · rw [if_neg (by omega), if_pos (by omega)]
      rw [gid_fail_below url [] [(url, 1)] (mapHas_nil url)
        (by simp [recordedAttempts, mapGet_single, MAX_LOAD_ATTEMPTS])]
      simp [recordedAttempts, mapGet_single, mapSet_single]
    · rw [if_neg (by omega), if_pos (by omega)]
      rw [gid_fail_below url [] [(url, 2)] (mapHas_nil url)
        (by simp [recordedAttempts, mapGet_single, MAX_LOAD_ATTEMPTS])]
      simp [recordedAttempts, mapGet_single, mapSet_single]
    · rw [if_neg (by omega), if_pos (by omega)]
      rw [gid_fail_below url [] [(url, 3)] (mapHas_nil url)
        (by simp [recordedAttempts, mapGet_single, MAX_LOAD_ATTEMPTS])]
      simp [recordedAttempts, mapGet_single, mapSet_single]
  · intro h
    subst h
    rw [failResult, failState_eq]
    rw [if_neg (by omega), if_pos (by omega)]
    rw [gid_fail_reach url [] [(url, 4)] (mapHas_nil url)
      (by simp [recordedAttempts, mapGet_single, MAX_LOAD_ATTEMPTS])
      (by simp [recordedAttempts, mapGet_single, MAX_LOAD_ATTEMPTS])]
    simp [recordedAttempts, mapGet_single, mapSet_single, mapSet_nil]
  · intro h load
    rw [failState_eq, if_neg (by omega), if_neg (by omega)]
    exact gid_cache_hit url _ _ load DEFAULT_IMAGE_DIMENSIONS
      (mapGet_single url DEFAULT_IMAGE_DIMENSIONS)

/-- Witness for C1 at the key `"u"`: the fourth failure is a rejection,
the fifth resolves with the cached default, and the sixth call performs
no load. -/
theorem C1_fifth_failure_defaults_witness :
    (failResult "u" 3 =
      ⟨.error ("Failed to load image: " ++ truncateKey "u" 150),
       ⟨some [], some [("u", 3 + 1)]⟩, true⟩) ∧
    (failResult "u" 4 =
      ⟨.ok DEFAULT_IMAGE_DIMENSIONS,
       ⟨some [("u", DEFAULT_IMAGE_DIMENSIONS)], some [("u", 5)]⟩, true⟩) ∧
    (getImageDimensions "u" (failState "u" 5) .failure =
      ⟨.ok DEFAULT_IMAGE_DIMENSIONS, failState "u" 5, false⟩) :=
  ⟨(C1_fifth_failure_defaults "u" 3).1 (by decide),
   (C1_fifth_failure_defaults "u" 4).2.1 rfl,
   (C1_fifth_failure_defaults "u" 5).2.2 (by decide) .failure⟩

/-- C6 counterexample: with the attempt counter at the ceiling (5), the
poisoned-key call does NOT clear the attempt-counter entry — the entry
`("u", 5)` is still present afterwards, contradicting the claim that the
counter entry is cleared. -/
theorem C6_counterexample_counter_not_cleared :
    mapHas
      (((getImageDimensions "u" ⟨some [], some [("u", 5)]⟩ .failure).state.attempts).getD [])
      "u" = true := by
  rw [gid_poisoned "u" [] (some [("u", 5)]) .failure (mapHas_nil "u")
    (by simp [recordedAttempts, mapGet_single, MAX_LOAD_ATTEMPTS])]
  simpa using mapHas_single "u" (5 : Nat)

/-- C6 (amended): once the recorded attempt count for a key reaches the
ceiling of 5, `getImageDimensions` permanently resolves that key to the
default dimensions — memoizing them in the cache when one is supplied —
and performs no further load attempts for it; the attempt-counter entry
is retained (it is only deleted on a successful load), not cleared. -/
theorem C6_poisoned_key_permanent (url : String) (c : JMap ImageDimensions)
    (a : JMap Nat) (n : Nat) (load load' : LoadOutcome)
    (hc : mapHas c url = false)
    (ha : mapGet a url = some n) (hn : 5 ≤ n) :
    -- the poisoned call: default result, memoized, counter retained, no load
    (getImageDimensions url ⟨some c, some a⟩ load =
      ⟨.ok DEFAULT_IMAGE_DIMENSIONS,
       ⟨some (mapSet c url DEFAULT_IMAGE_DIMENSIONS), some a⟩, false⟩) ∧
    -- every later call returns the memoized default with no load
    (getImageDimensions url
        ⟨some (mapSet c url DEFAULT_IMAGE_DIMENSIONS), some a⟩ load' =
      ⟨.ok DEFAULT_IMAGE_DIMENSIONS,
       ⟨some (mapSet c url DEFAULT_IMAGE_DIMENSIONS), some a⟩, false⟩) ∧
    -- with no cache supplied the key still resolves to the default, no load
    (getImageDimensions url ⟨none, some a⟩ load =
      ⟨.ok DEFAULT_IMAGE_DIMENSIONS, ⟨none, some a⟩, false⟩) := by
  have hrec : recordedAttempts ⟨some c, some a⟩ url ≥ MAX_LOAD_ATTEMPTS := by
    simp [recordedAttempts, ha, MAX_LOAD_ATTEMPTS]
    omega
  have hrec' : recordedAttempts ⟨none, some a⟩ url ≥ MAX_LOAD_ATTEMPTS := by
    simp [recordedAttempts, ha, MAX_LOAD_ATTEMPTS]
    omega
  refine ⟨gid_poisoned url c (some a) load hc hrec, ?_, ?_⟩
  · exact gid_cache_hit url _ _ load' DEFAULT_IMAGE_DIMENSIONS
      (mapGet_mapSet c url DEFAULT_IMAGE_DIMENSIONS)
  · exact gid_poisoned_no_cache url (some a) load hrec'

/-- Witness for the amended C6 at the key `"u"` with the counter at 5. -/
theorem C6_poisoned_key_permanent_witness :
    (getImageDimensions "u" ⟨some [], some [("u", 5)]⟩ .failure =
      ⟨.ok DEFAULT_IMAGE_DIMENSIONS,
       ⟨some (mapSet [] "u" DEFAULT_IMAGE_DIMENSIONS), some [("u", 5)]⟩,
       false⟩) ∧
    (getImageDimensions "u"
        ⟨some (mapSet [] "u" DEFAULT_IMAGE_DIMENSIONS), some [("u", 5)]⟩
        (.success 10 20) =
      ⟨.ok DEFAULT_IMAGE_DIMENSIONS,
       ⟨some (mapSet [] "u" DEFAULT_IMAGE_DIMENSIONS), some [("u", 5)]⟩,
       false⟩) ∧
    (getImageDimensions "u" ⟨none, some [("u", 5)]⟩ .failure =
      ⟨.ok DEFAULT_IMAGE_DIMENSIONS, ⟨none, some [("u", 5)]⟩, false⟩) :=
  C6_poisoned_key_permanent "u" [] [("u", 5)] 5 .failure (.success 10 20)
    (by decide) (by decide) (by decide)

/-! ## Resolution orchestrator: `tryParsers` (`src/embedUtils.ts`) -/

/-- `tryParsers` of `embedUtils.ts`.  One parser attempt —
`createParser(selectedParser, ...)` followed by `parser.parse(url)`,
either of which may throw — is modelled as a function from the parser
name to a settled promise; the URL and settings are fixed ambient inputs
absorbed into `attempt`.  The `while` loop with its
`idx === selectedParsers.length` re-throw is unfolded into structural
recursion; the final `throw new Error('All parsers failed')` is the
unreachable fall-through for the empty list. -/
def tryParsers {D : Type} (attempt : String → Except String D) :
    List String → Except String (D × String)
  | [] => .error "All parsers failed"
  | [p] =>
    match attempt p with
    | .ok d => .ok (d, p)
    | .error e => .error e
  | p :: q :: rest =>
    match attempt p with
    | .ok d => .ok (d, p)
    | .error _ => tryParsers attempt (q :: rest)

theorem tryParsers_first_success {D : Type}
    (attempt : String → Except String D) :
    ∀ (pre : List String) (p : String) (post : List String) (d : D),
      (∀ q ∈ pre, ∀ d', attempt q ≠ .ok d') → attempt p = .ok d →
      tryParsers attempt (pre ++ p :: post) = .ok (d, p) := by
  intro pre
  induction pre with
  | nil =>
    intro p post d _ hp
    cases post <;> simp [tryParsers, hp]
  | cons q pre' ih =>
    intro p post d hfail hp
    have hq : ∀ d', attempt q ≠ .ok d' := hfail q (by simp)
    obtain ⟨x, xs, hx⟩ : ∃ x xs, pre' ++ p :: post = x :: xs := by
      cases pre' <;> simp
    have hrest := ih p post d (fun r hr => hfail r (by simp [hr])) hp
    rw [List.cons_append, hx, tryParsers]
    rw [hx] at hrest
    cases ha : attempt q with
    | ok d' => exact absurd ha (hq d')
    | error e => exact hrest

theorem tryParsers_all_fail {D : Type}
    (attempt : String → Except String D) :
    ∀ (ps : List String) (hne : ps ≠ []) (e : String),
      (∀ p ∈ ps, ∀ d', attempt p ≠ .ok d') →
      attempt (ps.getLast hne) = .error e →
      tryParsers attempt ps = .error e := by
  intro ps
  induction ps with
  | nil => intro hne; exact absurd rfl hne
  | cons p rest ih =>
    intro _ e hfail hlast
    cases rest with
    | nil =>
      simp only [List.getLast_singleton] at hlast
      simp [tryParsers, hlast]
    | cons q rest' =>
      rw [tryParsers]
      cases ha : attempt p with
      | ok d => exact absurd ha (hfail p (by simp) d)
      | error e' =>
        refine ih (by simp) e (fun r hr => hfail r (by simp [hr])) ?_
        rw [List.getLast_cons] at hlast
        exact hlast

/-- C2: for every URL (absorbed into `attempt`) and non-empty list of
parser names, `tryParsers` tries the parsers in list order: whenever the
list splits as `pre ++ p :: post` with every parser in `pre` failing and
`p` succeeding with data `d`, the result is `.ok (d, p)` — the first
success paired with the name of the parser that produced it; and if
every parser in the list fails, the result is exactly the final
parser's failure. -/
theorem C2_tryParsers_order_and_failure {D : Type}
    (attempt : String → Except String D) (ps : List String) (hne : ps ≠ []) :
    (∀ pre p post d, ps = pre ++ p :: post →
      (∀ q ∈ pre, ∀ d', attempt q ≠ .ok d') → attempt p = .ok d →
      tryParsers attempt ps = .ok (d, p)) ∧
    (∀ e, (∀ p ∈ ps, ∀ d', attempt p ≠ .ok d') →
      attempt (ps.getLast hne) = .error e →
      tryParsers attempt ps = .error e) :=
  ⟨fun pre p post d hsplit hfail hp => by
      rw [hsplit]
      exact tryParsers_first_success attempt pre p post d hfail hp,
   fun e hfail hlast => tryParsers_all_fail attempt ps hne e hfail hlast⟩

/-- A concrete two-parser scenario for the C2 witness: parser `"A"`
fails, parser `"B"` succeeds with data `1`. -/
def exampleAttempt : String → Except String Nat :=
  fun s => if s == "B" then .ok 1 else .error "A fails"

/-- Witness for C2: with parsers `["A", "B"]` where `A` fails and `B`
succeeds, the result is `B`'s data tagged with `"B"`; with `["A"]`
alone, `A`'s failure is propagated. -/
theorem C2_tryParsers_order_and_failure_witness :
    tryParsers exampleAttempt ["A", "B"] = .ok (1, "B") ∧
    tryParsers exampleAttempt ["A"] = .error "A fails" := by
  have hA : exampleAttempt "A" = .error "A fails" := rfl
  have hB : exampleAttempt "B" = .ok 1 := rfl
  constructor
  · refine (C2_tryParsers_order_and_failure exampleAttempt ["A", "B"]
      (by simp)).1 ["A"] "B" [] 1 rfl ?_ hB
    intro q hq d' h
    rw [List.mem_singleton] at hq
    subst hq
    rw [hA] at h
    exact Except.noConfusion h
  · refine (C2_tryParsers_order_and_failure exampleAttempt ["A"]
      (by simp)).2 "A fails" ?_ hA
    intro p hp d' h
    rw [List.mem_singleton] at hp
    subst hp
    rw [hA] at h
    exact Except.noConfusion h

/-! ## ConcurrencyLimiter (`concurrencyLimiter.ts`)

The limiter's observable state: the FIFO `queue` of not-yet-started
tasks and the set of currently executing tasks, both as lists of task
identifiers (the source's `runningTasks` counter is the length of
`running`; identifying the running tasks lets us state that none is
aborted).  `started` and `settled` are history variables recording the
order in which tasks were started and settled. -/

structure LimiterState where
  queue : List Nat
  running : List Nat
  started : List Nat
  settled : List Nat
  maxConcurrency : Nat
deriving DecidableEq, Repr

/-- `processQueue` of `concurrencyLimiter.ts`: a single `if` (not a
loop) — when the running count is below the ceiling and the queue is
non-empty, `shift()` the front task, increment the running count and
launch the task. -/
def processQueue (s : LimiterState) : LimiterState :=
  if s.running.length < s.maxConcurrency then
    match s.queue with
    | [] => s
    | t :: rest =>
      { s with queue := rest, running := s.running ++ [t],
               started := s.started ++ [t] }
  else s

/-- The three externally triggered transitions of the limiter:
`enqueue(task)`, the completion of a running task (its `finally`
block: decrement and re-process), and `setMaxConcurrency(n)`. -/
inductive LEvent : Type where
  | enqueue (t : Nat)
  | complete (t : Nat)
  | setMax (n : Nat)
deriving DecidableEq, Repr

/-- One transition.  `enqueue` pushes and synchronously calls
`processQueue`; a completion removes the task from `running`, appends it
to `settled` and calls `processQueue`; `setMaxConcurrency` updates the
ceiling and calls `processQueue`.  A `complete` for a task that is not
running is a no-op (it cannot occur). -/
def step (s : LimiterState) : LEvent → LimiterState
  | .enqueue t => processQueue { s with queue := s.queue ++ [t] }
  | .complete t =>
    if t ∈ s.running then
      processQueue { s with running := s.running.erase t,
                            settled := s.settled ++ [t] }
    else s
  | .setMax n => processQueue { s with maxConcurrency := n }

/-- `new ConcurrencyLimiter(c)`. -/
def initState (c : Nat) : LimiterState :=
  { queue := [], running := [], started := [], settled := [],
    maxConcurrency := c }

/-- Run a sequence of events from a fresh limiter with ceiling `c`. -/
def runEvents (c : Nat) (evs : List LEvent) : LimiterState :=
  evs.foldl step (initState c)

/-- The task ids enqueued by a trace, in order. -/
def enqueuedOf : List LEvent → List Nat
  | [] => []
  | .enqueue t :: rest => t :: enqueuedOf rest
  | .complete _ :: rest => enqueuedOf rest
  | .setMax _ :: rest => enqueuedOf rest

/-- Completing running tasks (front first), `fuel` times or until none
is running: the only way the limiter makes progress once its callers go
quiet. -/
def drain : Nat → LimiterState → LimiterState
  | 0, s => s
  | fuel + 1, s =>
    match s.running with
    | [] => s
    | t :: _ => drain fuel (step s (.complete t))

/-! ### Limiter invariants -/

theorem processQueue_max (s : LimiterState) :
    (processQueue s).maxConcurrency = s.maxConcurrency := by
  unfold processQueue
  rcases hq : s.queue with _ | ⟨t, rest⟩ <;> split <;> rfl

theorem processQueue_settled (s : LimiterState) :
    (processQueue s).settled = s.settled := by
  unfold processQueue
  rcases hq : s.queue with _ | ⟨t, rest⟩ <;> split <;> rfl

theorem step_max (s : LimiterState) : ∀ e : LEvent,
    (step s e).maxConcurrency =
      match e with
      | .setMax n => n
      | _ => s.maxConcurrency := by
  intro e
  cases e with
  | enqueue t => rw [step, processQueue_max]
  | complete t =>
    rw [step]
    split
    · rw [processQueue_max]
    · rfl
  | setMax n => rw [step, processQueue_max]

/-- Generic invariant preservation along a trace. -/
theorem foldl_step_inv (P : LimiterState → Prop) :
    ∀ (evs : List LEvent) (s : LimiterState),
      P s → (∀ s' e, e ∈ evs → P s' → P (step s' e)) →
      P (evs.foldl step s) := by
  intro evs
  induction evs with
  | nil => intro s hs _; exact hs
  | cons e rest ih =>
    intro s hs hstep
    exact ih (step s e) (hstep s e (by simp) hs)
      (fun s' e' he' => hstep s' e' (by simp [he']))

/-- `processQueue` keeps the running count at or below the ceiling
bound `C` whenever the ceiling itself is at most `C`. -/
theorem processQueue_bound (s : LimiterState) (C : Nat)
    (hrun : s.running.length ≤ C) (hmax : s.maxConcurrency ≤ C) :
    (processQueue s).running.length ≤ C := by
  unfold processQueue
  rcases hq : s.queue with _ | ⟨t, rest⟩ <;> split
  · exact hrun
  · exact hrun
  · rename_i hlt
    simp only [List.length_append, List.length_singleton]
    omega
  · exact hrun

/-- `processQueue` conserves the total amount of pending+running work. -/
theorem processQueue_work (s : LimiterState) :
    (processQueue s).queue.length + (processQueue s).running.length =
      s.queue.length + s.running.length := by
  unfold processQueue
  rcases hq : s.queue with _ | ⟨t, rest⟩ <;> split
  · simp [hq]
  · simp [hq]
  · simp [hq]
    omega
  · simp [hq]

/-- After `processQueue`, a non-empty queue implies some task is
running, as long as the ceiling is positive. -/
theorem processQueue_progress (s : LimiterState)
    (hmax : 1 ≤ s.maxConcurrency) :
    (processQueue s).queue ≠ [] → (processQueue s).running ≠ [] := by
  unfold processQueue
  rcases hq : s.queue with _ | ⟨t, rest⟩ <;> split
  · intro h; exact absurd hq h
  · intro h; exact absurd hq h
  · intro _; simp
  · rename_i hlt
    intro _ hrun
    rw [hrun] at hlt
    simp only [List.length_nil] at hlt
    omega

/-- `processQueue` moves at most the front of the queue to the end of
`running`: the concatenation `started ++ queue` is unchanged. -/
theorem processQueue_fifo (s : LimiterState) :
    (processQueue s).started ++ (processQueue s).queue =
      s.started ++ s.queue := by
  unfold processQueue
  rcases hq : s.queue with _ | ⟨t, rest⟩ <;> split <;> simp [hq]

/-- `processQueue` conserves the list `settled ++ running ++ queue` up
to equality (moving the queue front to the running end preserves the
concatenation). -/
theorem processQueue_conserve (s : LimiterState) :
    (processQueue s).settled ++ (processQueue s).running ++
        (processQueue s).queue =
      s.settled ++ s.running ++ s.queue := by
  unfold processQueue
  rcases hq : s.queue with _ | ⟨t, rest⟩ <;> split <;> simp [hq]

/-- `processQueue` never removes a running task. -/
theorem processQueue_running_mono (s : LimiterState) (t : Nat)
    (ht : t ∈ s.running) : t ∈ (processQueue s).running := by
  unfold processQueue
  rcases hq : s.queue with _ | ⟨u, rest⟩ <;> split <;> simp [ht]

/-- The tasks enqueued by a single event. -/
def enqOf : LEvent → List Nat
  | .enqueue t => [t]
  | .complete _ => []
  | .setMax _ => []

theorem enqueuedOf_cons (e : LEvent) (rest : List LEvent) :
    enqueuedOf (e :: rest) = enqOf e ++ enqueuedOf rest := by
  cases e <;> rfl

/-- A completion of a running task permutes `settled ++ running ++
queue` (the settled task moves from `running` to `settled`). -/
theorem complete_conserve (s : LimiterState) (t : Nat)
    (ht : t ∈ s.running) :
    ((step s (.complete t)).settled ++ (step s (.complete t)).running ++
        (step s (.complete t)).queue).Perm
      (s.settled ++ s.running ++ s.queue) := by
  rw [step, if_pos ht, processQueue_conserve]
  have heq : (s.settled ++ [t]) ++ s.running.erase t ++ s.queue
      = s.settled ++ (t :: s.running.erase t) ++ s.queue := by simp
  rw [heq]
  exact List.Perm.append_right s.queue
    (List.Perm.append_left s.settled (List.perm_cons_erase ht).symm)

/-- A completion of a running task reduces the pending+running work by
exactly one. -/
theorem complete_work (s : LimiterState) (t : Nat) (ht : t ∈ s.running) :
    (step s (.complete t)).queue.length +
        (step s (.complete t)).running.length + 1 =
      s.queue.length + s.running.length := by
  rw [step, if_pos ht]
  rw [processQueue_work]
  simp only [List.length_erase_of_mem ht]
  have : 1 ≤ s.running.length := List.length_pos.mpr (List.ne_nil_of_mem ht)
  omega

/-- The full trace invariant for the limiter with bound `C` and
enqueue history `E`. -/
structure LimiterInv (C : Nat) (E : List Nat) (s : LimiterState) : Prop where
  bound : s.running.length ≤ C
  maxLe : s.maxConcurrency ≤ C
  maxPos : 1 ≤ s.maxConcurrency
  fifo : s.started ++ s.queue = E
  conserve : (s.settled ++ s.running ++ s.queue).Perm E
  progress : s.queue ≠ [] → s.running ≠ []

theorem step_preserves_inv (C : Nat) (E : List Nat) (s : LimiterState)
    (e : LEvent)
    (hset : ∀ n, e = .setMax n → 1 ≤ n ∧ n ≤ C)
    (hinv : LimiterInv C E s) :
    LimiterInv C (E ++ enqOf e) (step s e) := by
  cases e with
  | enqueue t =>
    refine ⟨?_, ?_, ?_, ?_, ?_, ?_⟩
    · exact processQueue_bound _ C hinv.bound hinv.maxLe
    · rw [step, processQueue_max]; exact hinv.maxLe
    · rw [step, processQueue_max]; exact hinv.maxPos
    · rw [step, processQueue_fifo]
      simp only [enqOf]
      show s.started ++ (s.queue ++ [t]) = E ++ [t]
      rw [← List.append_assoc, hinv.fifo]
    · rw [step, processQueue_conserve]
      simp only [enqOf]
      show (s.settled ++ s.running ++ (s.queue ++ [t])).Perm (E ++ [t])
      rw [← List.append_assoc]
      exact List.Perm.append_right [t] hinv.conserve
    · exact processQueue_progress _ hinv.maxPos
  | complete t =>
    by_cases ht : t ∈ s.running
    · refine ⟨?_, ?_, ?_, ?_, ?_, ?_⟩
      · rw [step, if_pos ht]
        refine processQueue_bound _ C ?_ hinv.maxLe
        calc (s.running.erase t).length ≤ s.running.length := by
              rw [List.length_erase_of_mem ht]; omega
          _ ≤ C := hinv.bound
      · rw [step, if_pos ht, processQueue_max]; exact hinv.maxLe
      · rw [step, if_pos ht, processQueue_max]; exact hinv.maxPos
      · rw [step, if_pos ht, processQueue_fifo]
        simp only [enqOf, List.append_nil]
        exact hinv.fifo
      · refine (complete_conserve s t ht).trans ?_
        simp only [enqOf, List.append_nil]
        exact hinv.conserve
      · rw [step, if_pos ht]
        exact processQueue_progress _ hinv.maxPos
    · rw [step, if_neg ht]
      simp only [enqOf, List.append_nil]
      exact hinv
  | setMax n =>
    obtain ⟨h1, h2⟩ := hset n rfl
    refine ⟨?_, ?_, ?_, ?_, ?_, ?_⟩
    · exact processQueue_bound _ C hinv.bound h2
    · rw [step, processQueue_max]; exact h2
    · rw [step, processQueue_max]; exact h1
    · rw [step, processQueue_fifo]
      simp only [enqOf, List.append_nil]
      exact hinv.fifo
    · rw [step, processQueue_conserve]
      simp only [enqOf, List.append_nil]
      exact hinv.conserve
    · exact processQueue_progress _ h1

/-- The invariant holds along every admissible trace. -/
theorem limiter_inv_run (C : Nat) :
    ∀ (evs : List LEvent) (s : LimiterState) (E : List Nat),
      (∀ n, LEvent.setMax n ∈ evs → 1 ≤ n ∧ n ≤ C) →
      LimiterInv C E s →
      LimiterInv C (E ++ enqueuedOf evs) (evs.foldl step s) := by
  intro evs
  induction evs with
  | nil =>
    intro s E _ hinv
    simpa [enqueuedOf] using hinv
  | cons e rest ih =>
    intro s E hset hinv
    have h1 : LimiterInv C (E ++ enqOf e) (step s e) :=
      step_preserves_inv C E s e (fun n hn => hset n (by rw [hn]; simp)) hinv
    have h2 := ih (step s e) (E ++ enqOf e)
      (fun n hn => hset n (by simp [hn])) h1
    rw [List.foldl_cons]
    rw [enqueuedOf_cons, ← List.append_assoc]
    exact h2

theorem limiter_inv_init (C : Nat) (hC : 1 ≤ C) :
    LimiterInv C [] (initState C) := by
  refine ⟨?_, ?_, ?_, ?_, ?_, ?_⟩ <;> simp [initState]
  exact hC

/-- Draining (completing running tasks, front first) empties the
limiter and settles exactly the tasks recorded by `conserve`. -/
theorem drain_spec (E : List Nat) :
    ∀ (fuel : Nat) (s : LimiterState),
      s.queue.length + s.running.length ≤ fuel →
      1 ≤ s.maxConcurrency →
      (s.queue ≠ [] → s.running ≠ []) →
      (s.settled ++ s.running ++ s.queue).Perm E →
      (drain fuel s).queue = [] ∧ (drain fuel s).running = [] ∧
        (drain fuel s).settled.Perm E := by
  intro fuel
  induction fuel with
  | zero =>
    intro s hw _ _ hperm
    have hq : s.queue = [] := List.length_eq_zero.mp (by omega)
    have hr : s.running = [] := List.length_eq_zero.mp (by omega)
    rw [drain]
    exact ⟨hq, hr, by simpa [hq, hr] using hperm⟩
  | succ fuel ih =>
    intro s hw hmax hprog hperm
    rcases hr : s.running with _ | ⟨t, rs⟩
    · have hq : s.queue = [] := by
        by_contra hq
        exact absurd hr (hprog hq)
      rw [drain, hr]
      exact ⟨hq, hr, by simpa [hq, hr] using hperm⟩
    · have ht : t ∈ s.running := by rw [hr]; simp
      rw [drain, hr]
      refine ih (step s (.complete t)) ?_ ?_ ?_ ?_
      · have := complete_work s t ht
        omega
      · rw [step, if_pos ht, processQueue_max]
        exact hmax
      · rw [step, if_pos ht]
        exact processQueue_progress _ hmax
      · exact (complete_conserve s t ht).trans hperm

/-- C3: for every admissible event trace on a fresh limiter with
ceiling `C ≥ 1` (every `setMaxConcurrency` argument in the trace being
between 1 and `C`): (a) the number of concurrently executing tasks
never exceeds `C`; (b) tasks are started in FIFO enqueue order — the
start history is a prefix of the enqueue history; (c) all enqueued
tasks eventually settle: completing the remaining running tasks drains
both the queue and the running set, and the settle history is exactly
the enqueued tasks (as a multiset); (d) calling `setMaxConcurrency`
with any (in particular a smaller) value never aborts an
already-running task. -/
theorem C3_limiter_bound_fifo_settle (C : Nat) (evs : List LEvent)
    (hC : 1 ≤ C)
    (hset : ∀ n, LEvent.setMax n ∈ evs → 1 ≤ n ∧ n ≤ C) :
    (runEvents C evs).running.length ≤ C ∧
    ((runEvents C evs).started ++ (runEvents C evs).queue =
      enqueuedOf evs) ∧
    (let s := runEvents C evs
     let s' := drain (s.queue.length + s.running.length) s
     s'.queue = [] ∧ s'.running = [] ∧ s'.settled.Perm (enqueuedOf evs)) ∧
    (∀ n t, t ∈ (runEvents C evs).running →
      t ∈ (step (runEvents C evs) (.setMax n)).running) := by
  have hinv : LimiterInv C ([] ++ enqueuedOf evs) (runEvents C evs) :=
    limiter_inv_run C evs (initState C) [] hset (limiter_inv_init C hC)
  rw [List.nil_append] at hinv
  refine ⟨hinv.bound, hinv.fifo, ?_, ?_⟩
  · exact drain_spec (enqueuedOf evs) _ (runEvents C evs) (le_refl _)
      hinv.maxPos hinv.progress hinv.conserve
  · intro n t ht
    rw [step]
    exact processQueue_running_mono _ t ht

/-- Witness for C3: ceiling 2, three tasks enqueued, the first
completes, then the ceiling is lowered to 1: at most 2 ran at once, the
start order was FIFO, draining settles all three tasks, and lowering
the ceiling aborts nothing. -/
theorem C3_limiter_bound_fifo_settle_witness :
    (runEvents 2 [.enqueue 0, .enqueue 1, .enqueue 2, .complete 0,
        .setMax 1]).running.length ≤ 2 ∧
    ((runEvents 2 [.enqueue 0, .enqueue 1, .enqueue 2, .complete 0,
        .setMax 1]).started ++
      (runEvents 2 [.enqueue 0, .enqueue 1, .enqueue 2, .complete 0,
        .setMax 1]).queue = [0, 1, 2]) ∧
    (let s := runEvents 2 [.enqueue 0, .enqueue 1, .enqueue 2,
        .complete 0, .setMax 1]
     let s' := drain (s.queue.length + s.running.length) s
     s'.queue = [] ∧ s'.running = [] ∧ s'.settled.Perm [0, 1, 2]) ∧
    (∀ n t, t ∈ (runEvents 2 [.enqueue 0, .enqueue 1, .enqueue 2,
        .complete 0, .setMax 1]).running →
      t ∈ (step (runEvents 2 [.enqueue 0, .enqueue 1, .enqueue 2,
        .complete 0, .setMax 1]) (.setMax n)).running) :=
  C3_limiter_bound_fifo_settle 2
    [.enqueue 0, .enqueue 1, .enqueue 2, .complete 0, .setMax 1]
    (by decide)
    (by
      intro n hn
      have hn1 : n = 1 := by
        simp only [List.mem_cons, List.not_mem_nil, or_false] at hn
        rcases hn with h | h | h | h | h
        · exact absurd h (by simp)
        · exact absurd h (by simp)
        · exact absurd h (by simp)
        · exact absurd h (by simp)
        · injection h
      subst hn1
      exact ⟨le_refl 1, by omega⟩)

/-- C4 counterexample: ceiling 1, three tasks enqueued (one starts, two
queue up), then `setMaxConcurrency(3)`.  The single `if` in
`processQueue` starts only one queued task, so after the call the queue
is still non-empty while the running count (2) is strictly below the
new ceiling (3) — contradicting the claimed post-condition that the
queue is empty or the running count equals the ceiling. -/
theorem C4_counterexample_single_start :
    (runEvents 1 [.enqueue 0, .enqueue 1, .enqueue 2,
        .setMax 3]).queue ≠ [] ∧
    (runEvents 1 [.enqueue 0, .enqueue 1, .enqueue 2,
        .setMax 3]).running.length <
      (runEvents 1 [.enqueue 0, .enqueue 1, .enqueue 2,
        .setMax 3]).maxConcurrency := by
  decide

/-- C4 (amended): every `enqueue`, task completion and
`setMaxConcurrency` call triggers exactly one `processQueue` pass, and
a pass dequeues and starts at most ONE queued task — it starts the
front task exactly when the running count is below the ceiling and the
queue is non-empty, and otherwise changes nothing.  `processQueue` does
not loop, so after a `setMaxConcurrency` that raises the ceiling by
more than available slack the queue can stay non-empty with the running
count below the ceiling; further queued tasks start only as running
tasks complete (or on later triggers). -/
theorem C4_single_dequeue_per_trigger (s : LimiterState) (t n : Nat) :
    (∀ u rest, s.queue = u :: rest →
      s.running.length < s.maxConcurrency →
      processQueue s =
        { s with queue := rest, running := s.running ++ [u],
                 started := s.started ++ [u] }) ∧
    (s.queue = [] → processQueue s = s) ∧
    (¬ s.running.length < s.maxConcurrency → processQueue s = s) ∧
    (step s (.enqueue t) = processQueue { s with queue := s.queue ++ [t] }) ∧
    (t ∈ s.running → step s (.complete t) =
      processQueue { s with running := s.running.erase t,
                            settled := s.settled ++ [t] }) ∧
    (step s (.setMax n) = processQueue { s with maxConcurrency := n }) := by
  refine ⟨?_, ?_, ?_, rfl, ?_, rfl⟩
  · intro u rest hq hlt
    rw [processQueue, if_pos hlt, hq]
  · intro hq
    rw [processQueue, hq]
    split <;> rfl
  · intro hlt
    rw [processQueue, if_neg hlt]
  · intro ht
    rw [step, if_pos ht]

/-- Witness for the amended C4 at a concrete state: one task queued,
none running, ceiling 2. -/
theorem C4_single_dequeue_per_trigger_witness :
    (∀ u rest, ([5] : List Nat) = u :: rest →
      ([] : List Nat).length < 2 →
      processQueue ⟨[5], [], [], [], 2⟩ =
        { queue := rest, running := [] ++ [u], started := [] ++ [u],
          settled := [], maxConcurrency := 2 }) ∧
    (([5] : List Nat) = [] → processQueue ⟨[5], [], [], [], 2⟩ =
      ⟨[5], [], [], [], 2⟩) ∧
    (¬ ([] : List Nat).length < 2 → processQueue ⟨[5], [], [], [], 2⟩ =
      ⟨[5], [], [], [], 2⟩) ∧
    (step ⟨[5], [], [], [], 2⟩ (.enqueue 7) =
      processQueue ⟨[5] ++ [7], [], [], [], 2⟩) ∧
    ((7 : Nat) ∈ ([] : List Nat) → step ⟨[5], [], [], [], 2⟩ (.complete 7) =
      processQueue ⟨[5], List.erase [] 7, [], [] ++ [7], 2⟩) ∧
    (step ⟨[5], [], [], [], 2⟩ (.setMax 3) =
      processQueue ⟨[5], [], [], [], 3⟩) :=
  C4_single_dequeue_per_trigger ⟨[5], [], [], [], 2⟩ 7 3

/-! ## Parser `process` normalizers

(`LocalParser.ts`, `JSONLinkParser.ts`, `MicroLinkParser.ts`,
`LinkPreviewParser.ts`, `IframelyParser.ts`) -/

/-- JavaScript `a || b` for a possibly-absent string `a` (absent and
empty are both falsy). -/
def jsOrS (a : Option String) (b : String) : String :=
  match a with
  | some s => if s == "" then b else s
  | none => b

/-- `.replace(/\n/g, ' ')` at the character level. -/
def replaceNewlines : List Char → List Char
  | [] => []
  | c :: rest => (if c = '\n' then ' ' else c) :: replaceNewlines rest

/-- `.replace(/\\/g, '\\\\')` at the character level: each backslash is
doubled. -/
def escapeBackslashes : List Char → List Char
  | [] => []
  | c :: rest =>
    if c = '\\' then '\\' :: '\\' :: escapeBackslashes rest
    else c :: escapeBackslashes rest

/-- `s.replace(/\n/g, ' ').replace(/\\/g, '\\\\')`. -/
def normalizeText (s : String) : String :=
  ⟨escapeBackslashes (replaceNewlines s.data)⟩

/-- Does the pattern occur at the start of the text? -/
def listStartsWith : List Char → List Char → Bool
  | [], _ => true
  | _ :: _, [] => false
  | p :: ps, c :: cs => p == c && listStartsWith ps cs

/-- JavaScript `text.includes(pat)` at the character level. -/
def containsSub (pat : List Char) : List Char → Bool
  | [] => pat.isEmpty
  | c :: rest => listStartsWith pat (c :: rest) || containsSub pat rest

/-- Output shape of the remote parsers' `process`. -/
structure ProcessedData where
  title : String
  image : String
  description : String
deriving DecidableEq, Repr

/-- Output shape of `LocalParser.process` (it also carries a favicon). -/
structure LocalProcessedData where
  title : String
  image : String
  description : String
  favicon : String
deriving DecidableEq, Repr

/-- Raw fields read by `LocalParser.process`. -/
structure LocalRawData where
  title : Option String
  image : Option String
  description : Option String
  favicon : Option String

/-- Raw fields read by `JSONLinkParser.process` (`data.title`,
`data.images`, `data.description`). -/
structure JSONLinkRawData where
  title : Option String
  images : List String
  description : Option String

/-- Raw fields read by `MicroLinkParser.process` (`data.data.title`,
`data.data.image?.url`, `data.data.logo?.url`,
`data.data.description`). -/
structure MicroLinkRawData where
  title : Option String
  imageUrl : Option String
  logoUrl : Option String
  description : Option String

/-- Raw fields read by `LinkPreviewParser.process`. -/
structure LinkPreviewRawData where
  title : Option String
  image : Option String
  description : Option String

/-- Raw fields read by `IframelyParser.process` (`data.meta.title`,
`data.links.thumbnail[].href`, `data.meta.description`). -/
structure IframelyRawData where
  title : Option String
  thumbnails : List String
  description : Option String

namespace LocalParser

/-- `LocalParser.process`: defaults all four fields to the empty string
and normalizes BOTH the description and the title. -/
def process (d : LocalRawData) : LocalProcessedData :=
  { title := normalizeText (jsOrS d.title ""),
    image := jsOrS d.image "",
    description := normalizeText (jsOrS d.description ""),
    favicon := jsOrS d.favicon "" }

end LocalParser

namespace JSONLinkParser

/-- `JSONLinkParser.process`: title passed through raw; only the
description is normalized. -/
def process (d : JSONLinkRawData) : ProcessedData :=
  { title := jsOrS d.title "",
    image := jsOrS d.images.head? "",
    description := normalizeText (jsOrS d.description "") }

end JSONLinkParser

namespace MicroLinkParser

/-- `MicroLinkParser.process`: title passed through raw; only the
description is normalized. -/
def process (d : MicroLinkRawData) : ProcessedData :=
  { title := jsOrS d.title "",
    image := jsOrS d.imageUrl (jsOrS d.logoUrl ""),
    description := normalizeText (jsOrS d.description "") }

end MicroLinkParser

namespace LinkPreviewParser

/-- `LinkPreviewParser.process`: title passed through raw; only the
description is normalized. -/
def process (d : LinkPreviewRawData) : ProcessedData :=
  { title := jsOrS d.title "",
    image := jsOrS d.image "",
    description := normalizeText (jsOrS d.description "") }

end LinkPreviewParser

namespace IframelyParser

/-- The thumbnail `reduce` of `IframelyParser.process`: keep a
`maxresdefault` thumbnail once found; otherwise take a `maxresdefault`
candidate or the first thumbnail. -/
def bestThumbnail (thumbnails : List String) : String :=
  thumbnails.foldl
    (fun best href =>
      if containsSub "maxresdefault".data best.data then best
      else if containsSub "maxresdefault".data href.data || best == "" then
        href
      else best)
    ""

/-- `IframelyParser.process`: title passed through raw; only the
description is normalized. -/
def process (d : IframelyRawData) : ProcessedData :=
  { title := jsOrS d.title "",
    image := jsOrS (some (bestThumbnail d.thumbnails)) "",
    description := normalizeText (jsOrS d.description "") }

end IframelyParser

/-- Adjacent-pair check: every backslash in the character list is
immediately followed by a matching backslash consumed as its pair. -/
def doubledBackslashes : List Char → Bool
  | [] => true
  | c :: rest =>
    if c = '\\' then
      match rest with
      | c2 :: rest2 => c2 == '\\' && doubledBackslashes rest2
      | [] => false
    else doubledBackslashes rest

theorem replaceNewlines_no_newline (l : List Char) :
    '\n' ∉ replaceNewlines l := by
  induction l with
  | nil => simp [replaceNewlines]
  | cons c rest ih =>
    rw [replaceNewlines]
    intro hmem
    rcases List.mem_cons.mp hmem with h | h
    · by_cases hc : c = '\n'
      · rw [if_pos hc] at h; exact absurd h.symm (by decide)
      · rw [if_neg hc] at h; exact hc h.symm
    · exact ih h

theorem escapeBackslashes_mem (l : List Char) (c : Char) :
    c ∈ escapeBackslashes l → c ∈ l ∨ c = '\\' := by
  induction l with
  | nil => intro h; simp [escapeBackslashes] at h
  | cons d rest ih =>
    rw [escapeBackslashes]
    by_cases hd : d = '\\'
    · rw [if_pos hd]
      intro h
      rcases List.mem_cons.mp h with h1 | h1
      · exact Or.inr h1
      · rcases List.mem_cons.mp h1 with h2 | h2
        · exact Or.inr h2
        · rcases ih h2 with h3 | h3
          · exact Or.inl (List.mem_cons_of_mem d h3)
          · exact Or.inr h3
    · rw [if_neg hd]
      intro h
      rcases List.mem_cons.mp h with h1 | h1
      · exact Or.inl (h1 ▸ List.mem_cons_self d rest)
      · rcases ih h1 with h3 | h3
        · exact Or.inl (List.mem_cons_of_mem d h3)
        · exact Or.inr h3

theorem doubledBackslashes_cons_pair (l : List Char) :
    doubledBackslashes ('\\' :: '\\' :: l) = doubledBackslashes l := by
  rw [doubledBackslashes.eq_def]
  simp

theorem doubledBackslashes_cons_other (c : Char) (l : List Char)
    (hc : c ≠ '\\') :
    doubledBackslashes (c :: l) = doubledBackslashes l := by
  rw [doubledBackslashes.eq_def]
  simp [hc]

theorem escapeBackslashes_doubled (l : List Char) :
    doubledBackslashes (escapeBackslashes l) = true := by
  induction l with
  | nil => rfl
  | cons c rest ih =>
    rw [escapeBackslashes]
    by_cases hc : c = '\\'
    · rw [if_pos hc, doubledBackslashes_cons_pair]
      exact ih
    · rw [if_neg hc, doubledBackslashes_cons_other c _ hc]
      exact ih

theorem normalizeText_no_newline (s : String) :
    '\n' ∉ (normalizeText s).data := by
  intro h
  rcases escapeBackslashes_mem _ _ h with h1 | h1
  · exact replaceNewlines_no_newline _ h1
  · exact absurd h1 (by decide)

theorem normalizeText_doubled (s : String) :
    doubledBackslashes (normalizeText s).data = true :=
  escapeBackslashes_doubled (replaceNewlines s.data)

theorem normalizeText_empty : normalizeText "" = "" := rfl

/-- C5 counterexample: `JSONLinkParser.process` leaves a raw newline in
the title (`data.title` is passed through unnormalized), contradicting
the claim that every variant's title contains no raw newlines. -/
theorem C5_counterexample_remote_title_newline :
    '\n' ∈ (JSONLinkParser.process ⟨some "a\nb", [], none⟩).title.data := by
  decide

/-- C5 (amended): for every parser variant and every input, the
description returned by `process` contains no raw newline (newlines
replaced by spaces) and no unescaped backslash (each backslash
doubled), and a missing title or description defaults to the empty
string; the TITLE is normalized the same way only by the local parser
variant — the remote variants (JSONLink, MicroLink, LinkPreview,
Iframely) return the title as provided by the API. -/
theorem C5_description_normalized_title_local_only
    (ld : LocalRawData) (jd : JSONLinkRawData) (md : MicroLinkRawData)
    (pd : LinkPreviewRawData) (fd : IframelyRawData) :
    ('\n' ∉ (LocalParser.process ld).description.data ∧
      doubledBackslashes (LocalParser.process ld).description.data = true ∧
      '\n' ∉ (LocalParser.process ld).title.data ∧
      doubledBackslashes (LocalParser.process ld).title.data = true) ∧
    ('\n' ∉ (JSONLinkParser.process jd).description.data ∧
      doubledBackslashes (JSONLinkParser.process jd).description.data = true) ∧
    ('\n' ∉ (MicroLinkParser.process md).description.data ∧
      doubledBackslashes (MicroLinkParser.process md).description.data = true) ∧
    ('\n' ∉ (LinkPreviewParser.process pd).description.data ∧
      doubledBackslashes (LinkPreviewParser.process pd).description.data = true) ∧
    ('\n' ∉ (IframelyParser.process fd).description.data ∧
      doubledBackslashes (IframelyParser.process fd).description.data = true) ∧
    (ld.title = none → (LocalParser.process ld).title = "") ∧
    (ld.description = none → (LocalParser.process ld).description = "") ∧
    (jd.title = none → (JSONLinkParser.process jd).title = "") ∧
    (jd.description = none → (JSONLinkParser.process jd).description = "") ∧
    (md.title = none → (MicroLinkParser.process md).title = "") ∧
    (md.description = none → (MicroLinkParser.process md).description = "") ∧
    (pd.title = none → (LinkPreviewParser.process pd).title = "") ∧
    (pd.description = none → (LinkPreviewParser.process pd).description = "") ∧
    (fd.title = none → (IframelyParser.process fd).title = "") ∧
    (fd.description = none → (IframelyParser.process fd).description = "") := by
  refine ⟨⟨normalizeText_no_newline _, normalizeText_doubled _,
      normalizeText_no_newline _, normalizeText_doubled _⟩,
    ⟨normalizeText_no_newline _, normalizeText_doubled _⟩,
    ⟨normalizeText_no_newline _, normalizeText_doubled _⟩,
    ⟨normalizeText_no_newline _, normalizeText_doubled _⟩,
    ⟨normalizeText_no_newline _, normalizeText_doubled _⟩,
    ?_, ?_, ?_, ?_, ?_, ?_, ?_, ?_, ?_, ?_⟩ <;>
    intro h <;>
    simp [LocalParser.process, JSONLinkParser.process,
      MicroLinkParser.process, LinkPreviewParser.process,
      IframelyParser.process, jsOrS, h, normalizeText_empty]

/-- Witness for the amended C5 at concrete inputs with newline and
backslash payloads and missing fields. -/
theorem C5_description_normalized_title_local_only_witness :
    ('\n' ∉ (LocalParser.process
        ⟨none, some "i", some "a\nb\\c", some "f"⟩).description.data ∧
      doubledBackslashes (LocalParser.process
        ⟨none, some "i", some "a\nb\\c", some "f"⟩).description.data = true ∧
      '\n' ∉ (LocalParser.process
        ⟨none, some "i", some "a\nb\\c", some "f"⟩).title.data ∧
      doubledBackslashes (LocalParser.process
        ⟨none, some "i", some "a\nb\\c", some "f"⟩).title.data = true) ∧
    (LocalParser.process
      ⟨none, some "i", some "a\nb\\c", some "f"⟩).title = "" := by
  have h := C5_description_normalized_title_local_only
    ⟨none, some "i", some "a\nb\\c", some "f"⟩
    ⟨none, [], none⟩ ⟨none, none, none, none⟩ ⟨none, none, none⟩
    ⟨none, [], none⟩
  exact ⟨h.1, h.2.2.2.2.2.1 rfl⟩

/-! ## `meetsCriteria` (`LocalParser.ts`) -/

/-- A DOM element as read by `meetsCriteria`: tag name, the attributes
it inspects, and the class list.  The ancestor chain is passed
separately. -/
structure ElemNode where
  tag : String
  style : Option String
  src : Option String
  alt : Option String
  id : String
  classList : List String
deriving DecidableEq, Repr

/-- The whitespace characters matched by the JavaScript regex class
`\s` (the common ones; exotic Unicode spaces are not modelled). -/
def isWhitespaceChar (c : Char) : Bool :=
  c = ' ' || c = '\t' || c = '\n' || c = '\r' ||
  c = '\x0b' || c = '\x0c'

def skipWhitespace : List Char → List Char
  | [] => []
  | c :: rest => if isWhitespaceChar c then skipWhitespace rest else c :: rest

/-- Does `/display:\s*none/` match at the start of the text? -/
def displayNoneAt (l : List Char) : Bool :=
  listStartsWith ("display:".data) l &&
  listStartsWith ("none".data) (skipWhitespace (l.drop ("display:".data).length))

/-- `/display:\s*none/.test(text)`: the pattern matches at some
position.  (`getAttribute('style')` returning `null` is modelled by the
empty string: neither `"null"` nor `""` matches the pattern.) -/
def testDisplayNone : List Char → Bool
  | [] => false
  | c :: rest => displayNoneAt (c :: rest) || testDisplayNone rest

def toLowerList (s : String) : List Char := s.data.map Char.toLower

def listEndsWith (pat l : List Char) : Bool :=
  listStartsWith pat.reverse l.reverse

/-- `element instanceof HTMLImageElement`. -/
def isImg (e : ElemNode) : Bool := e.tag == "img"

/-- The logo test of `meetsCriteria`: `src`/`alt` lower-cased contains
`"logo"`, or `src` (not lower-cased) ends with `".svg"`. -/
def isLogoImage (e : ElemNode) : Bool :=
  containsSub ("logo".data) (toLowerList (e.src.getD "")) ||
  containsSub ("logo".data) (toLowerList (e.alt.getD "")) ||
  listEndsWith (".svg".data) (e.src.getD "").data

/-- `id` or some class token contains `"header"` (case-insensitive). -/
def hasHeaderMarker (e : ElemNode) : Bool :=
  containsSub ("header".data) (toLowerList e.id) ||
  e.classList.any (fun v => containsSub ("header".data) (toLowerList v))

/-- `meetsCriteria` of the local parser (`LocalParser.ts`): reject on an
inline `display:none` style; accept a logo image outright; reject
header-marked non-images; otherwise recurse up the ancestor chain,
accepting at the root. -/
def meetsCriteria (e : ElemNode) (ancestors : List ElemNode) : Bool :=
  if testDisplayNone ((e.style).getD "").data then false
  else if isImg e && isLogoImage e then true
  else if hasHeaderMarker e && !(isImg e) then false
  else
    match ancestors with
    | [] => true
    | p :: rest => meetsCriteria p rest

/-- C7 counterexample: an `<img src="logo.svg">` whose own inline style
is `display:none` is REJECTED by `meetsCriteria` — the `display:none`
check precedes the logo exemption — whereas the claim says the logo
exemption accepts it despite the `display:none` style. -/
theorem C7_counterexample_hidden_logo_rejected :
    meetsCriteria ⟨"img", some "display:none", some "logo.svg", none, "", []⟩
      [⟨"div", none, none, none, "site-header", []⟩] = false := by
  decide

/-- C7 (amended): every element whose inline style matches
`display:\s*none` is rejected by `meetsCriteria`, logo images included
— the logo exemption does not override the element's own
`display:none`; when the element's own style does NOT match, an `<img>`
whose `src` or `alt` contains `"logo"` or whose `src` ends in `".svg"`
is accepted immediately, regardless of its own header markers and of
any ancestors (header-marked or hidden). -/
theorem C7_display_none_precedes_logo_exemption (e : ElemNode)
    (ancestors : List ElemNode) :
    (testDisplayNone ((e.style).getD "").data = true →
      meetsCriteria e ancestors = false) ∧
    (testDisplayNone ((e.style).getD "").data = false →
      isImg e = true → isLogoImage e = true →
      meetsCriteria e ancestors = true) := by
  constructor
  · intro h
    rw [meetsCriteria.eq_def, if_pos h]
  · intro h h1 h2
    rw [meetsCriteria.eq_def, if_neg (by rw [h]; exact Bool.false_ne_true),
      if_pos (by rw [h1, h2]; rfl)]

/-- Witness for the amended C7: a hidden non-logo image inside a header
`<div>` is rejected; a visible `logo.svg` image in the same position is
accepted. -/
theorem C7_display_none_precedes_logo_exemption_witness :
    meetsCriteria ⟨"img", some "display:none", some "photo.jpg", none, "", []⟩
      [⟨"div", none, none, none, "site-header", []⟩] = false ∧
    meetsCriteria ⟨"img", none, some "logo.svg", none, "", []⟩
      [⟨"div", none, none, none, "site-header", []⟩] = true :=
  ⟨(C7_display_none_precedes_logo_exemption
      ⟨"img", some "display:none", some "photo.jpg", none, "", []⟩
      [⟨"div", none, none, none, "site-header", []⟩]).1 (by decide),
   (C7_display_none_precedes_logo_exemption
      ⟨"img", none, some "logo.svg", none, "", []⟩
      [⟨"div", none, none, none, "site-header", []⟩]).2
      (by decide) (by decide) (by decide)⟩

/-! ## Parser factory `createParser` (`src/parsers/index.ts`) -/

/-- The settings fields read by `createParser`.  An absent field is
`none`; JavaScript truthiness makes `none` and `some ""` both falsy for
the API keys. -/
structure FactorySettings where
  jsonlinkApiKey : Option String
  iframelyApiKey : Option String
  linkpreviewApiKey : Option String
  saveImagesToVault : Option Bool
  imageFolderPath : Option String

/-- JavaScript falsiness of a possibly-absent string. -/
def jsFalsyS (a : Option String) : Bool := a.getD "" == ""

/-- A constructed parser instance, by variant. -/
inductive ParserKind : Type where
  | jsonlink (apiKey : String)
  | microlink
  | iframely (apiKey : String)
  | local
  | linkpreview (apiKey : String)
deriving DecidableEq, Repr

/-- A parser instance after the factory's common configuration
(`saveImagesToVault`, `imageFolderPath`). -/
structure ConfiguredParser where
  kind : ParserKind
  saveImagesToVault : Bool
  imageFolderPath : String
deriving DecidableEq, Repr

/-- The common configuration tail of `createParser`
(`settings.saveImagesToVault || false`,
`settings.imageFolderPath || 'link-embed-images'`). -/
def configureParser (settings : FactorySettings) (k : ParserKind) :
    ConfiguredParser :=
  { kind := k,
    saveImagesToVault := settings.saveImagesToVault.getD false,
    imageFolderPath :=
      if settings.imageFolderPath.getD "" == "" then "link-embed-images"
      else settings.imageFolderPath.getD "" }

/-- `createParser` of `src/parsers/index.ts`: the `switch` over the
parser name, with a thrown `Error` modelled as `Except.error`. -/
def createParser (parserType : String) (settings : FactorySettings) :
    Except String ConfiguredParser :=
  if parserType = "jsonlink" then
    if jsFalsyS settings.jsonlinkApiKey then
      .error "JSONLink API key is not set"
    else .ok (configureParser settings
      (.jsonlink (settings.jsonlinkApiKey.getD "")))
  else if parserType = "microlink" then
    .ok (configureParser settings .microlink)
  else if parserType = "iframely" then
    if jsFalsyS settings.iframelyApiKey then
      .error "Iframely API key is not set"
    else .ok (configureParser settings
      (.iframely (settings.iframelyApiKey.getD "")))
  else if parserType = "local" then
    .ok (configureParser settings .local)
  else if parserType = "linkpreview" then
    if jsFalsyS settings.linkpreviewApiKey then
      .error "LinkPreview API key is not set"
    else .ok (configureParser settings
      (.linkpreview (settings.linkpreviewApiKey.getD "")))
  else .error ("Unknown parser type: " ++ parserType)

/-- C9: `createParser` raises an error exactly when the selected variant
requires an API key that is missing/empty in the settings (`jsonlink`,
`iframely`, `linkpreview`) or the name is unrecognized; otherwise it
returns a configured parser instance. -/
theorem C9_factory_error_iff (name : String) (settings : FactorySettings) :
    ((∃ e, createParser name settings = .error e) ↔
      ((name = "jsonlink" ∧ jsFalsyS settings.jsonlinkApiKey = true) ∨
       (name = "iframely" ∧ jsFalsyS settings.iframelyApiKey = true) ∨
       (name = "linkpreview" ∧ jsFalsyS settings.linkpreviewApiKey = true) ∨
       name ∉ (["jsonlink", "microlink", "iframely", "local",
          "linkpreview"] : List String))) ∧
    (¬ (∃ e, createParser name settings = .error e) →
      ∃ p, createParser name settings = .ok p) := by
  constructor
  · by_cases h1 : name = "jsonlink"
    · subst h1
      by_cases hk : jsFalsyS settings.jsonlinkApiKey = true
      · simp [createParser, hk]
      · simp [createParser, hk]
    · by_cases h2 : name = "microlink"
      · subst h2
        simp [createParser]
      · by_cases h3 : name = "iframely"
        · subst h3
          by_cases hk : jsFalsyS settings.iframelyApiKey = true
          · simp [createParser, hk]
          · simp [createParser, hk]
        · by_cases h4 : name = "local"
          · subst h4
            simp [createParser]
          · by_cases h5 : name = "linkpreview"
            · subst h5
              by_cases hk : jsFalsyS settings.linkpreviewApiKey = true
              · simp [createParser, hk]
              · simp [createParser, hk]
            · simp [createParser, h1, h2, h3, h4, h5]
  · intro hne
    cases hc : createParser name settings with
    | ok p => exact ⟨p, rfl⟩
    | error e => exact absurd ⟨e, hc⟩ hne

/-- Witness for C9 at concrete inputs: `jsonlink` with a missing key
errors, `local` succeeds, and an unknown name errors. -/
theorem C9_factory_error_iff_witness :
    (∃ e, createParser "jsonlink" ⟨none, none, none, none, none⟩ =
      .error e) ∧
    (¬ (∃ e, createParser "local" ⟨none, none, none, none, none⟩ =
      .error e) → ∃ p, createParser "local" ⟨none, none, none, none, none⟩ =
      .ok p) ∧
    (∃ e, createParser "bogus" ⟨some "k", some "k", some "k", none, none⟩ =
      .error e) := by
  refine ⟨?_, (C9_factory_error_iff "local" ⟨none, none, none, none, none⟩).2,
    ?_⟩
  · exact (C9_factory_error_iff "jsonlink"
      ⟨none, none, none, none, none⟩).1.mpr (Or.inl ⟨rfl, by decide⟩)
  · exact (C9_factory_error_iff "bogus"
      ⟨some "k", some "k", some "k", none, none⟩).1.mpr
      (Or.inr (Or.inr (Or.inr (by decide))))

/-! ## `downloadImageToVault` (`src/parsers/utils/imageUtils.ts`) -/

/-- The vault operations `downloadImageToVault` can perform, in call
order (`createFolder`, `getAbstractFileByPath`, `delete`,
`createBinary`; `vault.read` is never called by this function). -/
inductive VaultOp : Type where
  | createFolder (path : String)
  | getFile (path : String)
  | deleteFile (path : String)
  | createBinary (path : String)
deriving DecidableEq, Repr

/-- External collaborators of `downloadImageToVault`: Obsidian's
`normalizePath`, the md5-hash prefix, the `URL` constructor's
`pathname` (`none` models a thrown `TypeError`), whether `requestUrl`
resolves, and whether a file already exists at a path. -/
structure DownloadEnv where
  normalizePath : String → String
  hash8 : String → String
  urlPathname : String → Option String
  fetchOk : String → Bool
  fileExists : String → Bool

/-- Node `path.basename` (query-free pathname; trailing slashes
dropped). -/
def pathBasename (p : String) : String :=
  let r := p.data.reverse.dropWhile (fun c => c = '/')
  ⟨(r.takeWhile (fun c => c ≠ '/')).reverse⟩

/-- Node `path.extname`: the suffix from the last `.` of the basename,
empty when there is no dot or only a leading dot. -/
def pathExtname (p : String) : String :=
  let b := (pathBasename p).data
  let k := (b.reverse.takeWhile (fun c => c ≠ '.')).length
  if k < b.length ∧ b.length - k - 1 ≠ 0 then ⟨b.drop (b.length - k - 1)⟩
  else ""

/-- Node `path.basename(name, ext)`: strip `ext` when it is a suffix. -/
def dropSuffix (s suffix : String) : String :=
  if listEndsWith suffix.data s.data then
    ⟨s.data.take (s.data.length - suffix.data.length)⟩
  else s

/-- `downloadImageToVault` of `imageUtils.ts`, returning the result
string and the ordered list of vault operations performed. -/
def downloadImageToVault (env : DownloadEnv) (url : String)
    (folderPath : String) : String × List VaultOp :=
  if url = "" || listStartsWith ("data:".data) url.data then
    (url, [])
  else
    -- createFolder is attempted first (its own failure is swallowed)
    let normalizedFolderPath := env.normalizePath folderPath
    let ops0 := [VaultOp.createFolder normalizedFolderPath]
    match env.urlPathname url with
    | none => (url, ops0)   -- `new URL(url)` threw; outer catch returns url
    | some pathname =>
      let urlHash := env.hash8 url
      let fileName0 := pathBasename pathname
      let fileName :=
        if fileName0 = "" || pathExtname fileName0 = "" then
          "image-" ++ urlHash ++ ".png"
        else
          let ext := pathExtname fileName0
          dropSuffix fileName0 ext ++ "-" ++ urlHash ++ ext
      if env.fetchOk url then
        let filePath := env.normalizePath (folderPath ++ "/" ++ fileName)
        if env.fileExists filePath then
          (filePath, ops0 ++ [VaultOp.getFile filePath,
            VaultOp.deleteFile filePath, VaultOp.createBinary filePath])
        else
          (filePath, ops0 ++ [VaultOp.getFile filePath,
            VaultOp.createBinary filePath])
      else (url, ops0)      -- `requestUrl` threw; outer catch returns url

/-- C10: for every empty or `data:`-prefixed input URL,
`downloadImageToVault` returns the input unchanged and performs no
vault operation whatsoever, for every environment and folder path. -/
theorem C10_data_url_identity_no_ops (env : DownloadEnv) (url : String)
    (folderPath : String)
    (h : url = "" ∨ listStartsWith ("data:".data) url.data = true) :
    downloadImageToVault env url folderPath = (url, []) := by
  rw [downloadImageToVault.eq_def]
  rcases h with h | h
  · rw [if_pos (by rw [h]; simp)]
  · rw [if_pos (by rw [h]; simp)]

/-- Witness for C10 at a concrete data URL and an environment whose
collaborators would all perform work if reached. -/
theorem C10_data_url_identity_no_ops_witness :
    downloadImageToVault
      ⟨id, fun _ => "abcd1234", fun _ => some "/a/b.png",
        fun _ => true, fun _ => true⟩
      "data:image/png;base64,AAAA" "link-embed-images" =
      ("data:image/png;base64,AAAA", []) :=
  C10_data_url_identity_no_ops
    ⟨id, fun _ => "abcd1234", fun _ => some "/a/b.png",
      fun _ => true, fun _ => true⟩
    "data:image/png;base64,AAAA" "link-embed-images"
    (Or.inr (by decide))

/-! ## Favicon resolution `getFavicon` (`LocalParser.ts`, async
version with verification) -/

/-- The favicon-relevant content of a parsed document: for each of the
four selectors, `none` when `querySelector` finds no element, and
otherwise the element's `href` attribute (itself possibly absent). -/
structure FaviconDoc where
  iconLink : Option (Option String)
  shortcutIconLink : Option (Option String)
  appleTouchIconLink : Option (Option String)
  appleTouchIconPrecomposedLink : Option (Option String)

/-- The four favicon selectors in the source's priority order. -/
def faviconCandidates (doc : FaviconDoc) : List (Option (Option String)) :=
  [doc.iconLink, doc.shortcutIconLink, doc.appleTouchIconLink,
   doc.appleTouchIconPrecomposedLink]

/-- `verifyImageUrl` of `LocalParser.ts`: skip URLs already known to
have failed, verify via an image load (`verify`), and record failures.
Returns the verified URL (or `none`) and the updated failed set. -/
def verifyImageUrl (verify : String → Bool) (imgUrl : String)
    (failedUrls : List String) : Option String × List String :=
  if imgUrl ∈ failedUrls then (none, failedUrls)
  else if verify imgUrl then (some imgUrl, failedUrls)
  else (none, imgUrl :: failedUrls)

/-- The `for (const selector of faviconSelectors)` loop of
`getFavicon`: resolve each present `href` against the base (`resolve`
absorbs the base; `none` models a throwing `new URL`), verify it, and
return the first verified URL, threading the failed set. -/
def trySelectors (resolve : String → Option String)
    (verify : String → Bool) :
    List (Option (Option String)) → List String →
      Option String × List String
  | [], failed => (none, failed)
  | cand :: rest, failed =>
    match cand with
    | some (some href) =>
      match resolve href with
      | some resolvedUrl =>
        match verifyImageUrl verify resolvedUrl failed with
        | (some v, failed') => (some v, failed')
        | (none, failed') => trySelectors resolve verify rest failed'
      | none => trySelectors resolve verify rest failed
    | _ => trySelectors resolve verify rest failed

/-- The fixed embedded fallback icon of `getFavicon` (Chrome's globe
icon). -/
def defaultFaviconDataUri : String :=
  "data:image/png;base64,iVBORw0KGgoAAAANSUhEUgAAABAAAAAQCAYAAAAf8/9hAAABRklEQVR42mKgOqjq75ds7510YNL0uV9nAGqniqwKYiCIHIIjcAK22BGQLRdgBWvc3fnWk/FJhrkPO1xPgGvqPfLfJMHhT1yqurvS48bPaJhjD2efgidnVwa2yv59xecvEvi0UWCXq9t0ItfP2MMZ7nwIpkA8F1n8uLxZHM6yrBH7FIl2gFXDHYsErkn2hyKLHtcKrFntk58uVQJ+kSdQnmjhID4cwLLa8+K0BXsfNWCqBOsFdo2Yldv43DBrkxd30cjnNyYBhK0SQGkI9pG4Mu40D5b374DRCAyhHqXVfTmOwivivMkJxBz5wnHCtBfGgNFC+ChWKWRf3hsQIlyEoIv4IYEo5wkgtBLRekY9DE4Uin4Keae6hydGnljPmE8kRcCine6827AMsJ1IuW9ibnlQpXLBCR/WC875m2BP+VSu3c/0m+8V08OBngc0pxcAAAAASUVORK5CYII="

/-- `getFavicon` of `LocalParser.ts` (the async version that verifies
each candidate): selector loop, then `/favicon.ico`, then the embedded
default icon. -/
def getFavicon (doc : FaviconDoc) (resolve : String → Option String)
    (verify : String → Bool) : String :=
  match trySelectors resolve verify (faviconCandidates doc) [] with
  | (some v, _) => v
  | (none, failed) =>
    match resolve "/favicon.ico" with
    | some defaultFaviconUrl =>
      match (verifyImageUrl verify defaultFaviconUrl failed).1 with
      | some v => v
      | none => defaultFaviconDataUri
    | none => defaultFaviconDataUri

/-- Modelled from the spec's description of candidate priority: the
first declared candidate (in selector order) whose `href` resolves and
whose resolved URL verifies. -/
def firstVerifiedCandidate (resolve : String → Option String)
    (verify : String → Bool) :
    List (Option (Option String)) → Option String
  | [] => none
  | cand :: rest =>
    match cand with
    | some (some href) =>
      match resolve href with
      | some u =>
        if verify u then some u
        else firstVerifiedCandidate resolve verify rest
      | none => firstVerifiedCandidate resolve verify rest
    | _ => firstVerifiedCandidate resolve verify rest

/-- The selector loop returns exactly the first verified candidate; its
failed set contains only URLs that fail verification; and any returned
URL came out of `resolve`. -/
theorem trySelectors_spec (resolve : String → Option String)
    (verify : String → Bool) :
    ∀ (cands : List (Option (Option String))) (failed : List String),
      (∀ u, u ∈ failed → verify u = false) →
      (trySelectors resolve verify cands failed).1 =
        firstVerifiedCandidate resolve verify cands ∧
      (∀ u, u ∈ (trySelectors resolve verify cands failed).2 →
        verify u = false) ∧
      (∀ v, (trySelectors resolve verify cands failed).1 = some v →
        ∃ href, resolve href = some v) := by
  intro cands
  induction cands with
  | nil =>
    intro failed hf
    refine ⟨rfl, hf, fun v hv => ?_⟩
    simp [trySelectors] at hv
  | cons cand rest ih =>
    intro failed hf
    match cand with
    | none =>
      simpa only [trySelectors, firstVerifiedCandidate] using ih failed hf
    | some none =>
      simpa only [trySelectors, firstVerifiedCandidate] using ih failed hf
    | some (some href) =>
      cases hres : resolve href with
      | none =>
        simp only [trySelectors, firstVerifiedCandidate, hres]
        exact ih failed hf
      | some u =>
        by_cases hu : u ∈ failed
        · have hvu : verify u = false := hf u hu
          have hcomp : trySelectors resolve verify
              (some (some href) :: rest) failed =
              trySelectors resolve verify rest failed := by
            simp only [trySelectors, hres, verifyImageUrl, hu, if_true]
          have hfc : firstVerifiedCandidate resolve verify
              (some (some href) :: rest) =
              firstVerifiedCandidate resolve verify rest := by
            simp only [firstVerifiedCandidate, hres, hvu,
              Bool.false_eq_true, if_false]
          rw [hcomp, hfc]
          exact ih failed hf
        · by_cases hv : verify u = true
          · have hcomp : trySelectors resolve verify
                (some (some href) :: rest) failed = (some u, failed) := by
              simp only [trySelectors, hres, verifyImageUrl, hu,
                if_false, hv, if_true]
            have hfc : firstVerifiedCandidate resolve verify
                (some (some href) :: rest) = some u := by
              simp only [firstVerifiedCandidate, hres, hv, if_true]
            rw [hcomp, hfc]
            refine ⟨rfl, hf, fun v hveq => ?_⟩
            exact ⟨href,
              hres.trans (congrArg some (Option.some_inj.mp hveq))⟩
          · have hv' : verify u = false := by
              rw [Bool.not_eq_true] at hv; exact hv
            have hf' : ∀ w, w ∈ u :: failed → verify w = false := by
              intro w hw
              rcases List.mem_cons.mp hw with h | h
              · rw [h]; exact hv'
              · exact hf w h
            have hcomp : trySelectors resolve verify
                (some (some href) :: rest) failed =
                trySelectors resolve verify rest (u :: failed) := by
              simp only [trySelectors, hres, verifyImageUrl, hu,
                if_false, hv', Bool.false_eq_true]
            have hfc : firstVerifiedCandidate resolve verify
                (some (some href) :: rest) =
                firstVerifiedCandidate resolve verify rest := by
              simp only [firstVerifiedCandidate, hres, hv',
                Bool.false_eq_true, if_false]
            rw [hcomp, hfc]
            exact ih (u :: failed) hf'

/-- C8: for every document and every behaviour of URL resolution and
load verification (with `resolve` never producing an empty URL, as
`new URL(...).href` cannot), `getFavicon` equals the first verified
declared candidate in priority order, else the verified
`/favicon.ico`, else the fixed embedded default icon — and it is never
the empty string. -/
theorem C8_getFavicon_priority_and_nonempty (doc : FaviconDoc)
    (resolve : String → Option String) (verify : String → Bool)
    (hres : ∀ href u, resolve href = some u → u ≠ "") :
    (getFavicon doc resolve verify =
      match firstVerifiedCandidate resolve verify
          (faviconCandidates doc) with
      | some v => v
      | none =>
        match resolve "/favicon.ico" with
        | some u => if verify u then u else defaultFaviconDataUri
        | none => defaultFaviconDataUri) ∧
    getFavicon doc resolve verify ≠ "" := by
  obtain ⟨h1, h2, h3⟩ := trySelectors_spec resolve verify
    (faviconCandidates doc) [] (fun u hu => absurd hu (List.not_mem_nil u))
  have hdef : defaultFaviconDataUri ≠ "" := by decide
  rw [getFavicon]
  cases hts : trySelectors resolve verify (faviconCandidates doc) [] with
  | mk r failed =>
    rw [hts] at h1 h2 h3
    cases r with
    | some v =>
      obtain ⟨href, hhref⟩ := h3 v rfl
      rw [← h1]
      exact ⟨rfl, hres href v hhref⟩
    | none =>
      rw [← h1]
      cases hico : resolve "/favicon.ico" with
      | none => exact ⟨rfl, hdef⟩
      | some u =>
        by_cases hu : u ∈ failed
        · have hvu : verify u = false := h2 u hu
          simp only [verifyImageUrl, hu, if_true, hvu,
            Bool.false_eq_true, if_false]
          exact ⟨trivial, hdef⟩
        · by_cases hv : verify u = true
          · simp only [verifyImageUrl, hu, if_false, hv, if_true]
            exact ⟨trivial, hres "/favicon.ico" u hico⟩
          · have hv' : verify u = false := by
              rw [Bool.not_eq_true] at hv; exact hv
            simp only [verifyImageUrl, hu, if_false, hv',
              Bool.false_eq_true]
            exact ⟨trivial, hdef⟩

/-- Witness for C8: a document with no favicon links and verification
failing everywhere resolves to the embedded default icon, non-empty. -/
theorem C8_getFavicon_priority_and_nonempty_witness :
    getFavicon ⟨none, none, none, none⟩
        (fun _ => some "https://x/i.png") (fun _ => false) =
      defaultFaviconDataUri ∧
    getFavicon ⟨none, none, none, none⟩
        (fun _ => some "https://x/i.png") (fun _ => false) ≠ "" :=
  C8_getFavicon_priority_and_nonempty ⟨none, none, none, none⟩
    (fun _ => some "https://x/i.png") (fun _ => false)
    (fun _ u h => by cases h; decide)

end LinkEmbed
